import Mathlib

/-!
Verification of the capability-gated strong type (`include/seqan3/core/detail/strong_type.hpp`)
and the tag-indexed record (`include/seqan3/io/record.hpp`) of this repository.

The C++ sources are shallowly embedded:
* `strong_type_skill` bits become `Nat` constants with the exact values of the
  C++ `enum struct strong_type_skill` (`1 << k` per skill, composites as unions).
* `strong_type<value_t, derived_t, skills>` becomes `strong_type V` (one stored
  value) together with one Lean function per C++ operator member.  Each C++
  `requires ((skills & bit) != strong_type_skill::none)` clause becomes the
  guard `S &&& bit ≠ 0` of an `if`; a disabled operator is modelled by the
  function returning `Option.none` (the operator does not exist), an enabled
  one by `Option.some` of the value the C++ body produces.  Operators that
  mutate `*this` (pre/post increment and decrement) return the updated state of
  the object explicitly, paired with the value the C++ operator returns.
-/

/-- The skill bits of `enum struct strong_type_skill`, embedded as `Nat`
bit masks with the exact values of the C++ enumerators. -/
def strong_type_skill.none : Nat := 0

/-- `add = 1 << 0`. -/
def strong_type_skill.add : Nat := 1 <<< 0

/-- `subtract = 1 << 1`. -/
def strong_type_skill.subtract : Nat := 1 <<< 1

/-- `multiply = 1 << 2`. -/
def strong_type_skill.multiply : Nat := 1 <<< 2

/-- `divide = 1 << 3`. -/
def strong_type_skill.divide : Nat := 1 <<< 3

/-- `modulo = 1 << 4`. -/
def strong_type_skill.modulo : Nat := 1 <<< 4

/-- `bitwise_and = 1 << 5`. -/
def strong_type_skill.bitwise_and : Nat := 1 <<< 5

/-- `bitwise_or = 1 << 6`. -/
def strong_type_skill.bitwise_or : Nat := 1 <<< 6

/-- `bitwise_xor = 1 << 7`. -/
def strong_type_skill.bitwise_xor : Nat := 1 <<< 7

/-- `bitwise_not = 1 << 8`. -/
def strong_type_skill.bitwise_not : Nat := 1 <<< 8

/-- `bitwise_lshift = 1 << 9`. -/
def strong_type_skill.bitwise_lshift : Nat := 1 <<< 9

/-- `bitwise_rshift = 1 << 10`. -/
def strong_type_skill.bitwise_rshift : Nat := 1 <<< 10

/-- `logical_and = 1 << 11`. -/
def strong_type_skill.logical_and : Nat := 1 <<< 11

/-- `logical_or = 1 << 12`. -/
def strong_type_skill.logical_or : Nat := 1 <<< 12

/-- `logical_not = 1 << 13`. -/
def strong_type_skill.logical_not : Nat := 1 <<< 13

/-- `increment = 1 << 14`. -/
def strong_type_skill.increment : Nat := 1 <<< 14

/-- `decrement = 1 << 15`. -/
def strong_type_skill.decrement : Nat := 1 <<< 15

/-- `convert = 1 << 16`. -/
def strong_type_skill.convert : Nat := 1 <<< 16

/-- `comparable = 1 << 17`. -/
def strong_type_skill.comparable : Nat := 1 <<< 17

/-- `additive = add | subtract`. -/
def strong_type_skill.additive : Nat :=
  strong_type_skill.add ||| strong_type_skill.subtract

/-- `multiplicative = multiply | divide | modulo`. -/
def strong_type_skill.multiplicative : Nat :=
  strong_type_skill.multiply ||| strong_type_skill.divide ||| strong_type_skill.modulo

/-- `bitwise_logic = bitwise_and | bitwise_or | bitwise_xor | bitwise_not`. -/
def strong_type_skill.bitwise_logic : Nat :=
  strong_type_skill.bitwise_and ||| strong_type_skill.bitwise_or |||
    strong_type_skill.bitwise_xor ||| strong_type_skill.bitwise_not

/-- `bitwise_shift = bitwise_lshift | bitwise_rshift`. -/
def strong_type_skill.bitwise_shift : Nat :=
  strong_type_skill.bitwise_lshift ||| strong_type_skill.bitwise_rshift

/-- `logic = logical_and | logical_or | logical_not`. -/
def strong_type_skill.logic : Nat :=
  strong_type_skill.logical_and ||| strong_type_skill.logical_or |||
    strong_type_skill.logical_not

/-- The state of a `strong_type<value_t, derived_t, skills>` object: it holds
exactly one value of the underlying type (`value_t value;`).  The `derived_t`
parameter only re-types results in C++ and adds no data, so a derived object is
represented by its base state. -/
structure strong_type (V : Type) where
  value : V

/-- `get()`: returns the underlying value (all four reference-qualified
overloads return the stored `value` unmodified). -/
def strong_type.get {V : Type} (a : strong_type V) : V :=
  a.value

/-- `operator+`, guarded by `requires ((skills & strong_type_skill::add) != none)`;
body `derived_t{get() + other.get()}`. -/
def strong_type.op_add {V : Type} [Add V] (S : Nat) (a other : strong_type V) :
    Option (strong_type V) :=
  if S &&& strong_type_skill.add ≠ 0 then
    Option.some (strong_type.mk (a.get + other.get))
  else
    Option.none

/-- `operator-`, guarded by the `subtract` bit; body `derived_t{get() - other.get()}`. -/
def strong_type.op_sub {V : Type} [Sub V] (S : Nat) (a other : strong_type V) :
    Option (strong_type V) :=
  if S &&& strong_type_skill.subtract ≠ 0 then
    Option.some (strong_type.mk (a.get - other.get))
  else
    Option.none

/-- `operator*`, guarded by the `multiply` bit; body `derived_t{get() * other.get()}`. -/
def strong_type.op_mul {V : Type} [Mul V] (S : Nat) (a other : strong_type V) :
    Option (strong_type V) :=
  if S &&& strong_type_skill.multiply ≠ 0 then
    Option.some (strong_type.mk (a.get * other.get))
  else
    Option.none

/-- `operator/`, guarded by the `divide` bit; body `derived_t{get() / other.get()}`. -/
def strong_type.op_div {V : Type} [Div V] (S : Nat) (a other : strong_type V) :
    Option (strong_type V) :=
  if S &&& strong_type_skill.divide ≠ 0 then
    Option.some (strong_type.mk (a.get / other.get))
  else
    Option.none

/-- `operator%`, guarded by the `modulo` bit; body `derived_t{get() % other.get()}`. -/
def strong_type.op_mod {V : Type} [Mod V] (S : Nat) (a other : strong_type V) :
    Option (strong_type V) :=
  if S &&& strong_type_skill.modulo ≠ 0 then
    Option.some (strong_type.mk (a.get % other.get))
  else
    Option.none

/-- `operator&`, guarded by the `bitwise_and` bit; body `derived_t{get() & other.get()}`. -/
def strong_type.op_and {V : Type} [AndOp V] (S : Nat) (a other : strong_type V) :
    Option (strong_type V) :=
  if S &&& strong_type_skill.bitwise_and ≠ 0 then
    Option.some (strong_type.mk (a.get &&& other.get))
  else
    Option.none

/-- `operator|`, guarded by the `bitwise_or` bit; body `derived_t{get() | other.get()}`. -/
def strong_type.op_or {V : Type} [OrOp V] (S : Nat) (a other : strong_type V) :
    Option (strong_type V) :=
  if S &&& strong_type_skill.bitwise_or ≠ 0 then
    Option.some (strong_type.mk (a.get ||| other.get))
  else
    Option.none

/-- `operator^`, guarded by the `bitwise_xor` bit; body `derived_t{get() ^ other.get()}`. -/
def strong_type.op_xor {V : Type} [Xor V] (S : Nat) (a other : strong_type V) :
    Option (strong_type V) :=
  if S &&& strong_type_skill.bitwise_xor ≠ 0 then
    Option.some (strong_type.mk (a.get ^^^ other.get))
  else
    Option.none

/-- Unary `operator~`, guarded by the `bitwise_not` bit; body `derived_t{~get()}`. -/
def strong_type.op_complement {V : Type} [Complement V] (S : Nat) (a : strong_type V) :
    Option (strong_type V) :=
  if S &&& strong_type_skill.bitwise_not ≠ 0 then
    Option.some (strong_type.mk (~~~a.get))
  else
    Option.none

/-- `operator<<(strong_type const &)`, guarded by the `bitwise_lshift` bit;
body `derived_t{get() << other.get()}`. -/
def strong_type.op_lshift {V : Type} [ShiftLeft V] (S : Nat) (a other : strong_type V) :
    Option (strong_type V) :=
  if S &&& strong_type_skill.bitwise_lshift ≠ 0 then
    Option.some (strong_type.mk (a.get <<< other.get))
  else
    Option.none

/-- `operator<<(integral_t const)`, the plain-integral overload, guarded by the
same `bitwise_lshift` bit; body `derived_t{get() << shift}`. -/
def strong_type.op_lshift_integral {V : Type} [HShiftLeft V Nat V] (S : Nat)
    (a : strong_type V) (shift : Nat) : Option (strong_type V) :=
  if S &&& strong_type_skill.bitwise_lshift ≠ 0 then
    Option.some (strong_type.mk (a.get <<< shift))
  else
    Option.none

/-- `operator>>(strong_type const &)`, guarded by the `bitwise_rshift` bit;
body `derived_t{get() >> other.get()}`. -/
def strong_type.op_rshift {V : Type} [ShiftRight V] (S : Nat) (a other : strong_type V) :
    Option (strong_type V) :=
  if S &&& strong_type_skill.bitwise_rshift ≠ 0 then
    Option.some (strong_type.mk (a.get >>> other.get))
  else
    Option.none

/-- `operator>>(integral_t const)`, the plain-integral overload, guarded by the
same `bitwise_rshift` bit; body `derived_t{get() >> shift}`. -/
def strong_type.op_rshift_integral {V : Type} [HShiftRight V Nat V] (S : Nat)
    (a : strong_type V) (shift : Nat) : Option (strong_type V) :=
  if S &&& strong_type_skill.bitwise_rshift ≠ 0 then
    Option.some (strong_type.mk (a.get >>> shift))
  else
    Option.none

/-- `operator&&`, guarded by the `logical_and` bit; body `get() && other.get()`
(the underlying values are used as booleans, so the underlying type is `Bool`
here); returns `bool`. -/
def strong_type.op_logical_and (S : Nat) (a other : strong_type Bool) : Option Bool :=
  if S &&& strong_type_skill.logical_and ≠ 0 then
    Option.some (a.get && other.get)
  else
    Option.none

/-- `operator||`, guarded by the `logical_or` bit; body `get() || other.get()`. -/
def strong_type.op_logical_or (S : Nat) (a other : strong_type Bool) : Option Bool :=
  if S &&& strong_type_skill.logical_or ≠ 0 then
    Option.some (a.get || other.get)
  else
    Option.none

/-- Unary `operator!`, guarded by the `logical_not` bit; body `!get()`. -/
def strong_type.op_logical_not (S : Nat) (a : strong_type Bool) : Option Bool :=
  if S &&& strong_type_skill.logical_not ≠ 0 then
    Option.some (!a.get)
  else
    Option.none

/-- Pre-increment `operator++()`, guarded by the `increment` bit.  The C++ body
is `++get(); return static_cast<derived_t &>(*this);`: the held value is
incremented in place and a reference to the object itself is returned.  The
result pair is (state of the object after the call, value of the returned
reference); the returned reference is the object itself, so both components
coincide.  The underlying integral `++` is embedded as `+ 1`. -/
def strong_type.op_pre_increment {V : Type} [Add V] [One V] (S : Nat) (a : strong_type V) :
    Option (strong_type V × strong_type V) :=
  if S &&& strong_type_skill.increment ≠ 0 then
    Option.some (strong_type.mk (a.get + 1), strong_type.mk (a.get + 1))
  else
    Option.none

/-- Post-increment `operator++(int)`, guarded by the `increment` bit.  The C++
body is `derived_t tmp{get()}; ++get(); return tmp;`.  The result pair is
(state of the object after the call, returned snapshot `tmp`). -/
def strong_type.op_post_increment {V : Type} [Add V] [One V] (S : Nat) (a : strong_type V) :
    Option (strong_type V × strong_type V) :=
  if S &&& strong_type_skill.increment ≠ 0 then
    Option.some (strong_type.mk (a.get + 1), strong_type.mk a.get)
  else
    Option.none

/-- Pre-decrement `operator--()`, guarded by the `decrement` bit; body
`--get(); return static_cast<derived_t &>(*this);`.  Result pair as for
pre-increment; the underlying `--` is embedded as `- 1`. -/
def strong_type.op_pre_decrement {V : Type} [Sub V] [One V] (S : Nat) (a : strong_type V) :
    Option (strong_type V × strong_type V) :=
  if S &&& strong_type_skill.decrement ≠ 0 then
    Option.some (strong_type.mk (a.get - 1), strong_type.mk (a.get - 1))
  else
    Option.none

/-- Post-decrement `operator--(int)`, guarded by the `decrement` bit; body
`derived_t tmp{get()}; --get(); return tmp;`. -/
def strong_type.op_post_decrement {V : Type} [Sub V] [One V] (S : Nat) (a : strong_type V) :
    Option (strong_type V × strong_type V) :=
  if S &&& strong_type_skill.decrement ≠ 0 then
    Option.some (strong_type.mk (a.get - 1), strong_type.mk a.get)
  else
    Option.none

/-- `operator==`, guarded by the `comparable` bit; body `get() == rhs.get()`
(value equality of the underlying type). -/
def strong_type.op_eq {V : Type} [DecidableEq V] (S : Nat) (a rhs : strong_type V) :
    Option Bool :=
  if S &&& strong_type_skill.comparable ≠ 0 then
    Option.some (decide (a.get = rhs.get))
  else
    Option.none

/-- `operator!=`, guarded by the `comparable` bit; body `!(*this == rhs)`:
it delegates to `operator==` and negates the result. -/
def strong_type.op_ne {V : Type} [DecidableEq V] (S : Nat) (a rhs : strong_type V) :
    Option Bool :=
  if S &&& strong_type_skill.comparable ≠ 0 then
    Option.map (fun b => !b) (strong_type.op_eq S a rhs)
  else
    Option.none

/-- Explicit `operator value_t()`, guarded by the `convert` bit; body `return get();`. -/
def strong_type.op_convert {V : Type} (S : Nat) (a : strong_type V) : Option V :=
  if S &&& strong_type_skill.convert ≠ 0 then
    Option.some a.get
  else
    Option.none

/-!
Embedding of `include/seqan3/io/record.hpp`: the `field` enum, the `fields`
tag-list class template, and the `record` class template.
-/

/-- The `enum class field` enumerators, in source order.  The C++ enumerator
`structure` is a Lean keyword and is embedded as `structure_`. -/
inductive field where
  | seq
  | id
  | qual
  | offset
  | bpp
  | structure_
  | structured_seq
  | energy
  | react
  | react_err
  | comment
  | alignment
  | ref_id
  | ref_seq
  | ref_offset
  | header_ptr
  | flag
  | mate
  | mapq
  | cigar
  | tags
  | bit_score
  | evalue
  | user_defined_0
  | user_defined_1
  | user_defined_2
  | user_defined_3
  | user_defined_4
  | user_defined_5
  | user_defined_6
  | user_defined_7
  | user_defined_8
  | user_defined_9
deriving DecidableEq

/-- `fields<fs...>::npos = std::numeric_limits<size_t>::max()`: the special
value that indicates that `index_of()` failed. -/
def fields.npos : Nat := 2 ^ 64 - 1

/-- The loop body of `fields<fs...>::index_of`: scan `as_array` from position
`i` upwards and return the position of the first element equal to `f`;
fall through to `npos` when the scan ends. -/
def fields.index_of_go (f : field) : List field → Nat → Nat
  | [], _ => fields.npos
  | g :: gs, i => if g = f then i else fields.index_of_go f gs (i + 1)

/-- `fields<fs...>::index_of(field f)`: the position of `f` in the parameter
pack (`as_array` is the pack stored in declaration order, embedded as the
list `fs`), or `npos` when `f` does not occur. -/
def fields.index_of (fs : List field) (f : field) : Nat :=
  fields.index_of_go f fs 0

/-- `fields<fs...>::contains(field f)`: literally `index_of(f) != npos`. -/
def fields.contains (fs : List field) (f : field) : Bool :=
  fields.index_of fs f != fields.npos

/-- The constexpr lambda inside the `static_assert` of `fields<fs...>`:
it compares every pair `as_array[i], as_array[j]` with `i < j` and yields
`false` as soon as some pair is equal, `true` otherwise.  The nested index
loops are embedded as structural recursion over the same set of pairs:
the head against every later element, then the tail against itself. -/
def fields.duplicate_check : List field → Bool
  | [] => true
  | g :: gs => gs.all (fun h => g != h) && fields.duplicate_check gs

/-- One element type of a `record`, as `record::clear_element` sees it: its
carrier, the member `clear()` when the constraint
`requires requires (t & v) { v.clear(); }` holds (`Option.none` when the type
has no such member), and the value `t{}` written by the fallback overload
`v = {}`. -/
structure elem_type where
  carrier : Type
  clear_member : Option (carrier → carrier)
  default_value : carrier

/-- `record::clear_element(t & v)`: overload resolution picks the constrained
overload (which calls `v.clear()`) whenever the element type has an invocable
member `clear`, and the unconstrained fallback (which assigns `v = {}`)
otherwise. -/
def record.clear_element (E : elem_type) (v : E.carrier) : E.carrier :=
  match E.clear_member with
  | Option.some c => c v
  | Option.none => E.default_value

/-- The data of a `record` over the element-type list `Es`: the heterogeneous
tuple `std::tuple<field_types...>` the record derives from. -/
def record.data : List elem_type → Type
  | [] => PUnit
  | E :: Es => E.carrier × record.data Es

/-- `record::clear()`: `std::apply(expander, *this)` calls `clear_element` on
every element of the tuple, in order, in place. -/
def record.clear : (Es : List elem_type) → record.data Es → record.data Es
  | [], r => r
  | _ :: Es, (v, rest) => (record.clear_element _ v, record.clear Es rest)

/-- The element type stored at position `i` (an out-of-range position is
mapped to a trivial placeholder; `record` never accesses one, because
`get_impl` static-asserts that the field is contained). -/
def record.elem_at : List elem_type → Nat → elem_type
  | [], _ => elem_type.mk PUnit Option.none PUnit.unit
  | E :: _, 0 => E
  | _ :: Es, Nat.succ n => record.elem_at Es n

/-- The carrier of the element at position `i`: the type `std::get<i>` yields. -/
def record.type_at (Es : List elem_type) (i : Nat) : Type :=
  (record.elem_at Es i).carrier

/-- Positional tuple read, `std::get<i>(record_as_tuple)`. -/
def record.get_pos : (Es : List elem_type) → record.data Es → (i : Nat) → record.type_at Es i
  | [], _, _ => PUnit.unit
  | _ :: _, (v, _), 0 => v
  | _ :: Es, (_, rest), Nat.succ n => record.get_pos Es rest n

/-- Positional tuple write: assignment through the reference
`std::get<i>(record_as_tuple)` returns. -/
def record.set_pos : (Es : List elem_type) → record.data Es → (i : Nat) → record.type_at Es i → record.data Es
  | [], r, _, _ => r
  | _ :: _, (_, rest), 0, w => (w, rest)
  | _ :: Es, (v, rest), Nat.succ n, w => (v, record.set_pos Es rest n w)

/-- `record::get_impl(field_constant<f>, record_as_tuple)` used as a read:
it static-asserts `field_ids::contains(f)` and forwards to
`std::get<field_ids::index_of(f)>`. -/
def record.get_impl (ids : List field) (Es : List elem_type) (r : record.data Es)
    (f : field) : record.type_at Es (fields.index_of ids f) :=
  record.get_pos Es r (fields.index_of ids f)

/-- `record::get_impl` used as a write: assignment through the reference
`std::get<field_ids::index_of(f)>` returns. -/
def record.set_impl (ids : List field) (Es : List elem_type) (r : record.data Es)
    (f : field) (w : record.type_at Es (fields.index_of ids f)) : record.data Es :=
  record.set_pos Es r (fields.index_of ids f) w

/-!
Theorems.  First two shared helper lemmas about the operator gates.
-/

/-- A gated operator (an `if` whose branches are `some`/`none`) yields a value
exactly when its guard holds. -/
theorem isSome_gate {α : Type} (c : Prop) [Decidable c] (x : α) :
    (if c then Option.some x else Option.none).isSome = true ↔ c := by
  by_cases h : c <;> simp [h]

/-- The C++ guard `(S & (1 << k)) != strong_type_skill::none` holds exactly
when bit `k` of `S` is set. -/
theorem skill_and_ne_iff (S k : Nat) : S &&& 1 <<< k ≠ 0 ↔ S.testBit k := by
  rw [Nat.one_shiftLeft, Nat.and_two_pow]
  cases h : S.testBit k <;> simp [h]

/-- C1: for every capability flag set `S` and every operator family, the
operator of `strong_type<V, D, S>` exists if and only if the family's bit is
present in `S`; both overloads of each shift direction (strong-typed right
operand and plain integral right operand) are gated by the same shift bit,
both increment forms by the `increment` bit, both decrement forms by the
`decrement` bit, and `==`/`!=` by the `comparable` bit. -/
theorem c1_skill_gating {V : Type} [Add V] [Sub V] [Mul V] [Div V] [Mod V]
    [AndOp V] [OrOp V] [Xor V] [Complement V] [ShiftLeft V] [ShiftRight V]
    [HShiftLeft V Nat V] [HShiftRight V Nat V] [DecidableEq V] [One V]
    (S : Nat) (a b : strong_type V) (p q : strong_type Bool) (n : Nat) :
    ((strong_type.op_add S a b).isSome ↔ S.testBit 0)
    ∧ ((strong_type.op_sub S a b).isSome ↔ S.testBit 1)
    ∧ ((strong_type.op_mul S a b).isSome ↔ S.testBit 2)
    ∧ ((strong_type.op_div S a b).isSome ↔ S.testBit 3)
    ∧ ((strong_type.op_mod S a b).isSome ↔ S.testBit 4)
    ∧ ((strong_type.op_and S a b).isSome ↔ S.testBit 5)
    ∧ ((strong_type.op_or S a b).isSome ↔ S.testBit 6)
    ∧ ((strong_type.op_xor S a b).isSome ↔ S.testBit 7)
    ∧ ((strong_type.op_complement S a).isSome ↔ S.testBit 8)
    ∧ ((strong_type.op_lshift S a b).isSome ↔ S.testBit 9)
    ∧ ((strong_type.op_lshift_integral S a n).isSome ↔ S.testBit 9)
    ∧ ((strong_type.op_rshift S a b).isSome ↔ S.testBit 10)
    ∧ ((strong_type.op_rshift_integral S a n).isSome ↔ S.testBit 10)
    ∧ ((strong_type.op_logical_and S p q).isSome ↔ S.testBit 11)
    ∧ ((strong_type.op_logical_or S p q).isSome ↔ S.testBit 12)
    ∧ ((strong_type.op_logical_not S p).isSome ↔ S.testBit 13)
    ∧ ((strong_type.op_pre_increment S a).isSome ↔ S.testBit 14)
    ∧ ((strong_type.op_post_increment S a).isSome ↔ S.testBit 14)
    ∧ ((strong_type.op_pre_decrement S a).isSome ↔ S.testBit 15)
    ∧ ((strong_type.op_post_decrement S a).isSome ↔ S.testBit 15)
    ∧ ((strong_type.op_convert S a).isSome ↔ S.testBit 16)
    ∧ ((strong_type.op_eq S a b).isSome ↔ S.testBit 17)
    ∧ ((strong_type.op_ne S a b).isSome ↔ S.testBit 17) := by
  simp only [strong_type.op_add, strong_type.op_sub, strong_type.op_mul, strong_type.op_div,
    strong_type.op_mod, strong_type.op_and, strong_type.op_or, strong_type.op_xor,
    strong_type.op_complement, strong_type.op_lshift, strong_type.op_lshift_integral,
    strong_type.op_rshift, strong_type.op_rshift_integral, strong_type.op_logical_and,
    strong_type.op_logical_or, strong_type.op_logical_not, strong_type.op_pre_increment,
    strong_type.op_post_increment, strong_type.op_pre_decrement, strong_type.op_post_decrement,
    strong_type.op_convert, strong_type.op_eq, strong_type.op_ne,
    strong_type_skill.add, strong_type_skill.subtract, strong_type_skill.multiply,
    strong_type_skill.divide, strong_type_skill.modulo, strong_type_skill.bitwise_and,
    strong_type_skill.bitwise_or, strong_type_skill.bitwise_xor, strong_type_skill.bitwise_not,
    strong_type_skill.bitwise_lshift, strong_type_skill.bitwise_rshift,
    strong_type_skill.logical_and, strong_type_skill.logical_or, strong_type_skill.logical_not,
    strong_type_skill.increment, strong_type_skill.decrement, strong_type_skill.convert,
    strong_type_skill.comparable]
  refine ⟨?_, ?_, ?_, ?_, ?_, ?_, ?_, ?_, ?_, ?_, ?_, ?_, ?_, ?_, ?_, ?_, ?_, ?_, ?_, ?_,
    ?_, ?_, ?_⟩ <;>
    (rw [← skill_and_ne_iff]; split <;> simp_all)

/-- C9: constructing a strong type from an underlying value and calling
`get()` returns that value unchanged, and `get` is a pure projection of the
held value (rebuilding from `get` reproduces the object, so no overload can
have modified it). -/
theorem c9_construct_get_round_trip {V : Type} (v : V) :
    (strong_type.mk v).get = v ∧ ∀ a : strong_type V, strong_type.mk a.get = a :=
  ⟨rfl, fun _ => rfl⟩


/-- C4: with the `increment` capability (independently of any other bit),
post-increment returns a snapshot whose `get()` is the pre-mutation value
while the operand's state afterwards holds the incremented value, and
pre-increment mutates in place and returns the object itself (re-typed as the
derived type), whose `get()` is the incremented value immediately; with the
`decrement` capability the decrement pair behaves symmetrically. -/
theorem c4_increment_decrement {V : Type} [Add V] [Sub V] [One V] (S : Nat)
    (a : strong_type V) :
    (S.testBit 14 →
      ∃ after ret, strong_type.op_post_increment S a = Option.some (after, ret)
        ∧ ret.get = a.get ∧ after.get = a.get + 1)
    ∧ (S.testBit 14 →
      ∃ after ret, strong_type.op_pre_increment S a = Option.some (after, ret)
        ∧ ret = after ∧ ret.get = a.get + 1)
    ∧ (S.testBit 15 →
      ∃ after ret, strong_type.op_post_decrement S a = Option.some (after, ret)
        ∧ ret.get = a.get ∧ after.get = a.get - 1)
    ∧ (S.testBit 15 →
      ∃ after ret, strong_type.op_pre_decrement S a = Option.some (after, ret)
        ∧ ret = after ∧ ret.get = a.get - 1) := by
  refine ⟨fun h => ⟨strong_type.mk (a.get + 1), strong_type.mk a.get, ?_, rfl, rfl⟩,
    fun h => ⟨strong_type.mk (a.get + 1), strong_type.mk (a.get + 1), ?_, rfl, rfl⟩,
    fun h => ⟨strong_type.mk (a.get - 1), strong_type.mk a.get, ?_, rfl, rfl⟩,
    fun h => ⟨strong_type.mk (a.get - 1), strong_type.mk (a.get - 1), ?_, rfl, rfl⟩⟩ <;>
    (have hg := (skill_and_ne_iff S _).mpr h
     simp only [strong_type.op_post_increment, strong_type.op_pre_increment,
       strong_type.op_post_decrement, strong_type.op_pre_decrement,
       strong_type_skill.increment, strong_type_skill.decrement]
     rw [if_pos hg])

/-- Witness for C4 at `V = Nat` with the increment-only skill set
`S = increment` and held value 5. -/
theorem c4_witness :
    ∃ after ret,
      strong_type.op_post_increment (2 ^ 14) (strong_type.mk (5 : Nat))
          = Option.some (after, ret)
        ∧ ret.get = (strong_type.mk (5 : Nat)).get
        ∧ after.get = (strong_type.mk (5 : Nat)).get + 1 :=
  (c4_increment_decrement (2 ^ 14) (strong_type.mk 5)).1 (by decide)

/-- C5: with the `comparable` capability, `==` holds exactly when the two
`get()` values are equal, `!=` is exactly the logical negation of `==`, and
equality is reflexive and symmetric. -/
theorem c5_comparable {V : Type} [DecidableEq V] (S : Nat) (a b : strong_type V)
    (h : S.testBit 17) :
    (strong_type.op_eq S a b = Option.some true ↔ a.get = b.get)
    ∧ (strong_type.op_ne S a b = Option.some true
        ↔ ¬ strong_type.op_eq S a b = Option.some true)
    ∧ strong_type.op_eq S a a = Option.some true
    ∧ (strong_type.op_eq S a b = Option.some true
        → strong_type.op_eq S b a = Option.some true) := by
  have h17 : S &&& 1 <<< 17 ≠ 0 := (skill_and_ne_iff S 17).mpr h
  simp only [strong_type.op_eq, strong_type.op_ne, strong_type_skill.comparable,
    if_pos h17]
  refine ⟨by simp, by simp, by simp, ?_⟩
  intro hab
  simp only [Option.some.injEq, decide_eq_true_eq] at hab ⊢
  exact hab.symm

/-- Witness for C5 at `V = Nat`, `S = comparable`, both held values 3. -/
theorem c5_witness :
    strong_type.op_eq (2 ^ 17) (strong_type.mk (3 : Nat)) (strong_type.mk 3)
      = Option.some true :=
  (c5_comparable (2 ^ 17) (strong_type.mk 3) (strong_type.mk 3) (by decide)).2.2.1

/-- C6: every enabled binary arithmetic, bitwise, or logical operator returns
a newly constructed value (a `bool` for the logical operators) whose content
is the underlying operator applied to the two operands' `get()` values.  The
source operators never write through either operand (their bodies only read
`get()`), which the embedding reflects by returning a fresh value and no
updated operand state. -/
theorem c6_binary_operators {V : Type} [Add V] [Sub V] [Mul V] [Div V] [Mod V]
    [AndOp V] [OrOp V] [Xor V] [ShiftLeft V] [ShiftRight V] [HShiftLeft V Nat V]
    [HShiftRight V Nat V] (S : Nat) (a b : strong_type V) (p q : strong_type Bool)
    (n : Nat) :
    (S.testBit 0 → ∃ c, strong_type.op_add S a b = Option.some c ∧ c.get = a.get + b.get)
    ∧ (S.testBit 1 → ∃ c, strong_type.op_sub S a b = Option.some c ∧ c.get = a.get - b.get)
    ∧ (S.testBit 2 → ∃ c, strong_type.op_mul S a b = Option.some c ∧ c.get = a.get * b.get)
    ∧ (S.testBit 3 → ∃ c, strong_type.op_div S a b = Option.some c ∧ c.get = a.get / b.get)
    ∧ (S.testBit 4 → ∃ c, strong_type.op_mod S a b = Option.some c ∧ c.get = a.get % b.get)
    ∧ (S.testBit 5 → ∃ c, strong_type.op_and S a b = Option.some c ∧ c.get = a.get &&& b.get)
    ∧ (S.testBit 6 → ∃ c, strong_type.op_or S a b = Option.some c ∧ c.get = a.get ||| b.get)
    ∧ (S.testBit 7 → ∃ c, strong_type.op_xor S a b = Option.some c ∧ c.get = a.get ^^^ b.get)
    ∧ (S.testBit 9 → ∃ c, strong_type.op_lshift S a b = Option.some c ∧ c.get = a.get <<< b.get)
    ∧ (S.testBit 9 → ∃ c, strong_type.op_lshift_integral S a n = Option.some c ∧ c.get = a.get <<< n)
    ∧ (S.testBit 10 → ∃ c, strong_type.op_rshift S a b = Option.some c ∧ c.get = a.get >>> b.get)
    ∧ (S.testBit 10 → ∃ c, strong_type.op_rshift_integral S a n = Option.some c ∧ c.get = a.get >>> n)
    ∧ (S.testBit 11 → strong_type.op_logical_and S p q = Option.some (p.get && q.get))
    ∧ (S.testBit 12 → strong_type.op_logical_or S p q = Option.some (p.get || q.get)) := by
  refine ⟨?_, ?_, ?_, ?_, ?_, ?_, ?_, ?_, ?_, ?_, ?_, ?_, ?_, ?_⟩ <;>
    (intro h
     have hg := (skill_and_ne_iff S _).mpr h
     simp only [strong_type.op_add, strong_type.op_sub, strong_type.op_mul,
       strong_type.op_div, strong_type.op_mod, strong_type.op_and, strong_type.op_or,
       strong_type.op_xor, strong_type.op_lshift, strong_type.op_lshift_integral,
       strong_type.op_rshift, strong_type.op_rshift_integral, strong_type.op_logical_and,
       strong_type.op_logical_or, strong_type_skill.add, strong_type_skill.subtract,
       strong_type_skill.multiply, strong_type_skill.divide, strong_type_skill.modulo,
       strong_type_skill.bitwise_and, strong_type_skill.bitwise_or,
       strong_type_skill.bitwise_xor, strong_type_skill.bitwise_lshift,
       strong_type_skill.bitwise_rshift, strong_type_skill.logical_and,
       strong_type_skill.logical_or]
     rw [if_pos hg]
     all_goals exact ⟨_, rfl, rfl⟩)

/-- Witness for C6 at `V = Nat`, `S` with every skill bit set, operands 6 and 3. -/
theorem c6_witness :
    ∃ c, strong_type.op_add (2 ^ 18 - 1) (strong_type.mk (6 : Nat)) (strong_type.mk 3)
        = Option.some c
      ∧ c.get = (strong_type.mk (6 : Nat)).get + (strong_type.mk (3 : Nat)).get :=
  (c6_binary_operators (2 ^ 18 - 1) (strong_type.mk 6) (strong_type.mk 3)
    (strong_type.mk true) (strong_type.mk false) 2).1 (by decide)

/-- The scan `index_of_go` starting at offset `i` on a list containing `f`
returns `i` plus the position of the first occurrence of `f`. -/
theorem index_of_go_spec (f : field) :
    ∀ (fs : List field) (i : Nat), f ∈ fs →
      ∃ j, fields.index_of_go f fs i = i + j ∧ j < fs.length
        ∧ fs.get? j = Option.some f
        ∧ ∀ m, m < j → fs.get? m ≠ Option.some f := by
  intro fs
  induction fs with
  | nil => intro i h; cases h
  | cons g gs ih =>
    intro i h
    by_cases hg : g = f
    · exact ⟨0, by simp [fields.index_of_go, hg], by simp, by simp [hg],
        fun m hm => absurd hm (by omega)⟩
    · have hf : f ∈ gs := by
        rcases List.mem_cons.mp h with h1 | h2
        · exact absurd h1.symm hg
        · exact h2
      obtain ⟨j, hgo, hlt, hget, hfirst⟩ := ih (i + 1) hf
      refine ⟨j + 1, ?_, by simpa using hlt, by simpa using hget, ?_⟩
      · rw [fields.index_of_go, if_neg hg, hgo]; omega
      · intro m hm
        cases m with
        | zero => simp [hg]
        | succ m => exact fun hc => hfirst m (by omega) (by simpa using hc)

/-- The scan returns `npos` when `f` does not occur in the remaining list. -/
theorem index_of_go_absent (f : field) :
    ∀ (fs : List field) (i : Nat), f ∉ fs → fields.index_of_go f fs i = fields.npos := by
  intro fs
  induction fs with
  | nil => intro i _; rfl
  | cons g gs ih =>
    intro i h
    have hg : g ≠ f := fun e => h (e ▸ List.mem_cons_self g gs)
    rw [fields.index_of_go, if_neg hg]
    exact ih _ (fun hf => h (List.mem_cons_of_mem g hf))

/-- For a contained tag, `index_of` points at that tag. -/
theorem get?_index_of (fs : List field) (f : field) (h : f ∈ fs) :
    fs.get? (fields.index_of fs f) = Option.some f := by
  obtain ⟨j, hgo, _, hget, _⟩ := index_of_go_spec f fs 0 h
  have : fields.index_of fs f = j := by simpa [fields.index_of] using hgo
  rw [this]; exact hget

/-- For a contained tag, `index_of` is a valid position. -/
theorem index_of_lt_length (fs : List field) (f : field) (h : f ∈ fs) :
    fields.index_of fs f < fs.length := by
  obtain ⟨j, hgo, hlt, _, _⟩ := index_of_go_spec f fs 0 h
  have : fields.index_of fs f = j := by simpa [fields.index_of] using hgo
  rw [this]; exact hlt

/-- Two distinct contained tags have distinct `index_of` positions. -/
theorem index_of_ne_of_ne (fs : List field) (f g : field) (hf : f ∈ fs) (hg : g ∈ fs)
    (hne : f ≠ g) : fields.index_of fs f ≠ fields.index_of fs g := by
  intro he
  have h1 := get?_index_of fs f hf
  have h2 := get?_index_of fs g hg
  rw [he, h2] at h1
  exact hne (Option.some.inj h1).symm

/-- C2: for every tag list and tag, `index_of` returns the zero-based position
of the first occurrence when the tag is present (a position inside the valid
range, holding the tag, with no earlier occurrence), and the sentinel `npos`
when absent; `contains` is true exactly when `index_of` is not `npos`; when
the list is shorter than `npos` (always the case for a C++ parameter pack),
the sentinel lies outside the valid index range.  Both functions depend only
on the tag list, so they agree across all instances of the record type. -/
theorem c2_index_of_contains (fs : List field) (f : field) :
    (f ∈ fs → fields.index_of fs f < fs.length
        ∧ fs.get? (fields.index_of fs f) = Option.some f
        ∧ ∀ m, m < fields.index_of fs f → fs.get? m ≠ Option.some f)
    ∧ (f ∉ fs → fields.index_of fs f = fields.npos)
    ∧ (fields.contains fs f = true ↔ fields.index_of fs f ≠ fields.npos)
    ∧ (fs.length < fields.npos → f ∉ fs → ¬ fields.index_of fs f < fs.length) := by
  refine ⟨?_, ?_, ?_, ?_⟩
  · intro h
    obtain ⟨j, hgo, hlt, hget, hfirst⟩ := index_of_go_spec f fs 0 h
    have he : fields.index_of fs f = j := by simpa [fields.index_of] using hgo
    rw [he]
    exact ⟨hlt, hget, hfirst⟩
  · intro h
    exact index_of_go_absent f fs 0 h
  · simp [fields.contains, bne_iff_ne]
  · intro hlen habs
    have he : fields.index_of fs f = fields.npos := index_of_go_absent f fs 0 habs
    rw [he]
    omega

/-- Witness for C2 on the tag list `[id, seq]` with present tag `seq`. -/
theorem c2_witness :
    [field.id, field.seq].get? (fields.index_of [field.id, field.seq] field.seq)
      = Option.some field.seq :=
  ((c2_index_of_contains [field.id, field.seq] field.seq).1 (by decide)).2.1

/-- C8: the definition-time duplicate-detection predicate (the constexpr
lambda evaluated in the `static_assert` of `fields<fs...>`) holds if and only
if no tag occurs twice in the tag list, so a duplicate-free list is accepted
and any list with a repeated tag is rejected. -/
theorem c8_duplicate_check (fs : List field) :
    fields.duplicate_check fs = true ↔ fs.Nodup := by
  induction fs with
  | nil => simp [fields.duplicate_check]
  | cons g gs ih =>
    simp only [fields.duplicate_check, Bool.and_eq_true, List.all_eq_true, bne_iff_ne,
      List.nodup_cons, ih]
    constructor
    · rintro ⟨h1, h2⟩
      exact ⟨fun hmem => (h1 g hmem) rfl, h2⟩
    · rintro ⟨h1, h2⟩
      exact ⟨fun x hx hgx => h1 (hgx ▸ hx), h2⟩

/-- `clear()` acts positionally: the element at every position of the cleared
record is `clear_element` of the element that was there. -/
theorem clear_get_pos : ∀ (Es : List elem_type) (r : record.data Es) (i : Nat),
    record.get_pos Es (record.clear Es r) i
      = record.clear_element (record.elem_at Es i) (record.get_pos Es r i)
  | [], _, _ => rfl
  | _ :: _, (_, _), 0 => rfl
  | _ :: Es, (_, rest), Nat.succ n => clear_get_pos Es rest n

/-- Reading back the position just written yields the written value. -/
theorem get_pos_set_pos_same : ∀ (Es : List elem_type) (r : record.data Es) (i : Nat),
    i < Es.length → ∀ (w : record.type_at Es i),
      record.get_pos Es (record.set_pos Es r i w) i = w
  | [], _, i, h, _ => absurd h (Nat.not_lt_zero i)
  | _ :: _, (_, _), 0, _, _ => rfl
  | _ :: Es, (_, rest), Nat.succ n, h, w =>
      get_pos_set_pos_same Es rest n (Nat.lt_of_succ_lt_succ h) w

/-- Writing one position leaves every other position unchanged. -/
theorem get_pos_set_pos_ne : ∀ (Es : List elem_type) (r : record.data Es) (i j : Nat),
    i ≠ j → ∀ (w : record.type_at Es i),
      record.get_pos Es (record.set_pos Es r i w) j = record.get_pos Es r j
  | [], _, _, _, _, _ => rfl
  | _ :: _, (_, _), 0, 0, hij, _ => absurd rfl hij
  | _ :: _, (_, _), 0, Nat.succ _, _, _ => rfl
  | _ :: _, (_, _), Nat.succ _, 0, _, _ => rfl
  | _ :: Es, (_, rest), Nat.succ n, Nat.succ m, hij, w =>
      get_pos_set_pos_ne Es rest n m (fun e => hij (by rw [e])) w

/-- A container element type, `std::vector<int>`-like: its member `clear()`
empties the container and value-initialisation `t{}` is the empty container. -/
def vector_nat : elem_type :=
  elem_type.mk (List Nat) (Option.some (fun _ => [])) []

/-- A scalar numeric element type, `int`-like: it has no member `clear()`,
and value-initialisation `t{}` is 0. -/
def scalar_nat : elem_type :=
  elem_type.mk Nat Option.none 0

/-- An element type whose member `clear()` differs from value-initialisation:
clearing yields 7 while `t{}` is 0.  It separates the two overloads of
`clear_element`. -/
def reset_to_seven : elem_type :=
  elem_type.mk Nat (Option.some (fun _ => 7)) 0

/-- A record with one container-valued field holding 3 elements and one
scalar numeric field holding the nonzero value 5. -/
def demo_record : record.data [vector_nat, scalar_nat] :=
  ((1 :: 2 :: 3 :: [] : List Nat), ((5 : Nat), PUnit.unit))

/-- C3: `clear()` resets every element in place: at each position it invokes
the element type's own clear-to-empty operation when one exists and otherwise
overwrites with the default-initialised value; concretely, on a record with a
container field holding 3 elements and a scalar numeric field holding 5, the
container field is empty (0 elements) afterwards and the numeric field is 0. -/
theorem c3_clear (Es : List elem_type) (r : record.data Es) :
    (∀ i, record.get_pos Es (record.clear Es r) i
        = record.clear_element (record.elem_at Es i) (record.get_pos Es r i))
    ∧ (record.get_pos [vector_nat, scalar_nat] demo_record 0).length = 3
    ∧ (record.get_pos [vector_nat, scalar_nat]
        (record.clear [vector_nat, scalar_nat] demo_record) 0).length = 0
    ∧ record.get_pos [vector_nat, scalar_nat]
        (record.clear [vector_nat, scalar_nat] demo_record) 1 = (0 : Nat) :=
  ⟨fun i => clear_get_pos Es r i, rfl, rfl, rfl⟩

/-- C10: `clear_element` dispatches to the element's member `clear()` whenever
the type has one — never to the default-value assignment path, even when the
member's effect differs from default-initialisation — and takes the `v = {}`
path exactly for types with no such member. -/
theorem c10_clear_element_dispatch (E : elem_type) (v : E.carrier) :
    (∀ c, E.clear_member = Option.some c → record.clear_element E v = c v)
    ∧ (E.clear_member = Option.none → record.clear_element E v = E.default_value) := by
  constructor
  · intro c hc
    simp [record.clear_element, hc]
  · intro hc
    simp [record.clear_element, hc]

/-- Witness for C10 on `reset_to_seven`, a type whose `clear()` result 7
differs from its default value 0: the member is invoked, not the assignment. -/
theorem c10_witness :
    record.clear_element reset_to_seven (3 : Nat) = (7 : Nat)
      ∧ (7 : Nat) ≠ reset_to_seven.default_value :=
  ⟨(c10_clear_element_dispatch reset_to_seven (3 : Nat)).1 (fun _ => (7 : Nat)) rfl,
    by decide⟩

/-- C7: tag-based access resolves through `index_of` to the same tuple
position for writing and for reading, so writing a value at a tag and reading
that tag back yields exactly the written value, while every other tag of the
record reads back unchanged. -/
theorem c7_round_trip (ids : List field) (Es : List elem_type)
    (r : record.data Es) (hlen : ids.length = Es.length) (f g : field)
    (hf : f ∈ ids) (hg : g ∈ ids)
    (w : record.type_at Es (fields.index_of ids f)) :
    record.get_impl ids Es (record.set_impl ids Es r f w) f = w
    ∧ (g ≠ f → record.get_impl ids Es (record.set_impl ids Es r f w) g
        = record.get_impl ids Es r g) := by
  constructor
  · have hb : fields.index_of ids f < Es.length :=
      hlen ▸ index_of_lt_length ids f hf
    exact get_pos_set_pos_same Es r _ hb w
  · intro hne
    have hij : fields.index_of ids f ≠ fields.index_of ids g :=
      index_of_ne_of_ne ids f g hf hg (fun e => hne e.symm)
    exact get_pos_set_pos_ne Es r _ _ hij w

/-- Witness for C7 on a two-field record `{id : int, seq : vector<int>}`:
writing 7 at tag `id` and reading tag `id` back yields 7. -/
theorem c7_witness :
    record.get_impl [field.id, field.seq] [scalar_nat, vector_nat]
        (record.set_impl [field.id, field.seq] [scalar_nat, vector_nat]
          ((2 : Nat), ((9 :: [] : List Nat), PUnit.unit)) field.id (7 : Nat))
        field.id
      = (7 : Nat) :=
  (c7_round_trip [field.id, field.seq] [scalar_nat, vector_nat]
      ((2 : Nat), ((9 :: [] : List Nat), PUnit.unit)) rfl field.id field.seq
      (by decide) (by decide) (7 : Nat)).1
